import Mathlib

/-!
# Verification of the PyBaMM_Calibration_Microgrid scripts

A shallow embedding in Lean 4 of the algorithmic cores of the repository:

* the degradation-rate lookup and the hour-by-hour battery state simulation
  of `Config.py` (state of charge, DoD accumulator, equivalent-full-cycle
  counting and capacity fade);
* the per-iteration Monte Carlo LCOE computation and the P90 CAPEX
  inversion of `pybamm_simulation_monte_carlo.py` / `Graphics.py`;
* the optimistic-scenario LCOE script `calculate_lcoe.py`.

The scripts' floating-point arithmetic is modelled exactly over `ℚ`;
the lognormal parameterization (a statement about logs, square roots and
exponentials) is modelled over `ℝ`.
-/

namespace Microgrid

/-- `np.clip(x, lo, hi)` = `np.minimum(np.maximum(x, lo), hi)`. -/
def npClip (x lo hi : ℚ) : ℚ := min (max x lo) hi

/-- The linear interpolant of `Config.py`'s `DEGRADATION_RATES` table
(`DoD_pct = [0, 10, 50, 100]`, `Rate_per_100_EFC = [0, 0.015, 0.075, 0.150]`)
as built by `scipy.interpolate.interp1d(..., kind='linear',
fill_value='extrapolate')`: on each table segment the chord through its two
endpoints, extended beyond the table by the end segments. -/
def rate_interp_func (x : ℚ) : ℚ :=
  if x ≤ 10 then 0 + (x - 0) * ((0.015 - 0) / (10 - 0))
  else if x ≤ 50 then 0.015 + (x - 10) * ((0.075 - 0.015) / (50 - 10))
  else 0.075 + (x - 50) * ((0.150 - 0.075) / (100 - 50))

/-- `Config.get_rate_per_efc`: clip the queried DoD to `[0, 100]`, query the
interpolated table, divide by 100 (per-1-EFC basis) and floor at 0. -/
def get_rate_per_efc (dod_pct : ℚ) : ℚ :=
  let dod_clipped := npClip dod_pct 0 100
  let rate_per_100_efc := rate_interp_func dod_clipped
  max 0 (rate_per_100_efc / 100)

lemma rate_interp_func_eq (x : ℚ) : rate_interp_func x = 3 / 2000 * x := by
  unfold rate_interp_func
  split_ifs <;> norm_num <;> ring

lemma npClip_nonneg (x : ℚ) : 0 ≤ npClip x 0 100 := by
  unfold npClip
  exact le_min (le_max_right x 0) (by norm_num)

lemma get_rate_per_efc_eq (d : ℚ) : get_rate_per_efc d = 3 / 200000 * npClip d 0 100 := by
  show 0 ⊔ rate_interp_func (npClip d 0 100) / 100 = 3 / 200000 * npClip d 0 100
  rw [rate_interp_func_eq]
  have h := npClip_nonneg d
  rw [max_eq_right (by positivity)]
  ring

lemma npClip_eq_self {x : ℚ} (h0 : 0 ≤ x) (h1 : x ≤ 100) : npClip x 0 100 = x := by
  unfold npClip
  rw [max_eq_left h0, min_eq_left h1]

lemma npClip_mono {x y : ℚ} (h : x ≤ y) : npClip x 0 100 ≤ npClip y 0 100 := by
  unfold npClip
  exact min_le_min (max_le_max h le_rfl) le_rfl

/-- C5. The degradation-rate lookup `get_rate_per_efc` first clamps its query
to `[0,100]` % DoD; it returns exactly the table value divided by 100 at each
breakpoint of the reference table `{(0,0),(10,0.015),(50,0.075),(100,0.150)}`;
strictly between two neighbouring breakpoints it returns their linear blend
(in particular `rate(30)` is the blend of `rate(10)` and `rate(50)`); it is
monotonically non-decreasing in DoD; and it never returns a negative rate. -/
theorem get_rate_per_efc_clamped_interpolating_monotone_nonneg :
    (∀ d : ℚ, get_rate_per_efc d = get_rate_per_efc (npClip d 0 100))
    ∧ (get_rate_per_efc 0 = 0 ∧ get_rate_per_efc 10 = 0.015 / 100 ∧
       get_rate_per_efc 50 = 0.075 / 100 ∧ get_rate_per_efc 100 = 0.150 / 100)
    ∧ (∀ x : ℚ, 0 < x → x < 10 →
        get_rate_per_efc x =
          get_rate_per_efc 0 + (x - 0) / (10 - 0) * (get_rate_per_efc 10 - get_rate_per_efc 0))
    ∧ (∀ x : ℚ, 10 < x → x < 50 →
        get_rate_per_efc x =
          get_rate_per_efc 10 + (x - 10) / (50 - 10) * (get_rate_per_efc 50 - get_rate_per_efc 10))
    ∧ (∀ x : ℚ, 50 < x → x < 100 →
        get_rate_per_efc x =
          get_rate_per_efc 50 + (x - 50) / (100 - 50) * (get_rate_per_efc 100 - get_rate_per_efc 50))
    ∧ (∀ d e : ℚ, d ≤ e → get_rate_per_efc d ≤ get_rate_per_efc e)
    ∧ (∀ d : ℚ, 0 ≤ get_rate_per_efc d) := by
  have hb : ∀ x : ℚ, 0 ≤ x → x ≤ 100 → get_rate_per_efc x = 3 / 200000 * x := by
    intro x h0 h1
    rw [get_rate_per_efc_eq, npClip_eq_self h0 h1]
  refine ⟨?_, ⟨?_, ?_, ?_, ?_⟩, ?_, ?_, ?_, ?_, ?_⟩
  · intro d
    rw [get_rate_per_efc_eq, get_rate_per_efc_eq]
    congr 1
    unfold npClip
    have h0 := npClip_nonneg d
    have h1 : npClip d 0 100 ≤ 100 := min_le_right _ _
    unfold npClip at h0 h1
    rw [max_eq_left h0, min_eq_left h1]
  · rw [hb 0 (by norm_num) (by norm_num)]; norm_num
  · rw [hb 10 (by norm_num) (by norm_num)]; norm_num
  · rw [hb 50 (by norm_num) (by norm_num)]; norm_num
  · rw [hb 100 (by norm_num) (by norm_num)]; norm_num
  · intro x hx0 hx1
    rw [hb x (le_of_lt hx0) (by linarith), hb 0 (by norm_num) (by norm_num),
      hb 10 (by norm_num) (by norm_num)]
    ring
  · intro x hx0 hx1
    rw [hb x (by linarith) (by linarith), hb 10 (by norm_num) (by norm_num),
      hb 50 (by norm_num) (by norm_num)]
    ring
  · intro x hx0 hx1
    rw [hb x (by linarith) (by linarith), hb 50 (by norm_num) (by norm_num),
      hb 100 (by norm_num) (by norm_num)]
    ring
  · intro d e h
    rw [get_rate_per_efc_eq, get_rate_per_efc_eq]
    have := npClip_mono h
    nlinarith
  · intro d
    rw [get_rate_per_efc_eq]
    have := npClip_nonneg d
    positivity

/-- Witness for C5 at concrete inputs: the blend identity at DoD 30 between
the breakpoints 10 and 50, and monotonicity at the pair (3, 7). -/
theorem get_rate_per_efc_clamped_interpolating_monotone_nonneg_witness :
    (get_rate_per_efc 30 =
      get_rate_per_efc 10 + (30 - 10) / (50 - 10) * (get_rate_per_efc 50 - get_rate_per_efc 10))
    ∧ get_rate_per_efc 3 ≤ get_rate_per_efc 7 :=
  ⟨get_rate_per_efc_clamped_interpolating_monotone_nonneg.2.2.2.1 30 (by norm_num) (by norm_num),
   get_rate_per_efc_clamped_interpolating_monotone_nonneg.2.2.2.2.2.1 3 7 (by norm_num)⟩

/-! ## The hourly simulation loop of `Config.py` -/

/-- The parameters of a simulation run: `CAPACITY_NOMINAL_AH` and
`INITIAL_SOH_PCT` (the script fixes them to `100.0` and `80.0`). -/
structure SimParams where
  capNominal : ℚ
  sohInit : ℚ
deriving DecidableEq

/-- `CAPACITY_INITIAL_SOH_AH = (INITIAL_SOH_PCT / 100) * CAPACITY_NOMINAL_AH`. -/
def capacityInitial (p : SimParams) : ℚ := p.sohInit / 100 * p.capNominal

/-- The mutable per-hour state of the loop: `current_soc_pct`,
`dod_buffer_sum`, `current_capacity_ah` and `total_efc_accumulated`. -/
structure SimState where
  soc : ℚ
  buf : ℚ
  cap : ℚ
  efc : ℚ
deriving DecidableEq

/-- Python's float `%` for a positive modulus: `a - b * ⌊a / b⌋`. -/
def pyMod (a b : ℚ) : ℚ := a - b * ⌊a / b⌋

/-- `delta_soc_pct = (I_h * 1) / current_capacity_ah * 100`. -/
def delta_soc_pct (s : SimState) (i_h : ℚ) : ℚ := i_h * 1 / s.cap * 100

/-- `new_soc_pct = np.clip(current_soc_pct + delta_soc_pct, 0.0, 100.0)`. -/
def new_soc_pct (s : SimState) (i_h : ℚ) : ℚ := npClip (s.soc + delta_soc_pct s i_h) 0 100

/-- `dod_in_hour = abs(new_soc_pct - current_soc_pct)`. -/
def dod_in_hour (s : SimState) (i_h : ℚ) : ℚ := |new_soc_pct s i_h - s.soc|

/-- One iteration of the `for i in time_hours` loop of `Config.py`: update the
SoC, add the hour's absolute SoC change to the DoD accumulator, and whenever
the accumulator reaches 200 convert it into EFCs (at the 100 %-DoD reference
rate, Ah fade based on the initial capacity) keeping the remainder mod 200. -/
def step (p : SimParams) (s : SimState) (i_h : ℚ) : SimState :=
  let newSoc := new_soc_pct s i_h
  let dod_buffer_sum := s.buf + dod_in_hour s i_h
  if 200 ≤ dod_buffer_sum then
    let efc_this_hour := dod_buffer_sum / 200
    let rate_per_efc := get_rate_per_efc 100
    let soh_fade_pct_of_initial := rate_per_efc * efc_this_hour * 100
    let capacity_fade_ah := soh_fade_pct_of_initial / 100 * capacityInitial p
    { soc := newSoc, buf := pyMod dod_buffer_sum 200,
      cap := s.cap - capacity_fade_ah, efc := s.efc + efc_this_hour }
  else
    { soc := newSoc, buf := dod_buffer_sum, cap := s.cap, efc := s.efc }

/-- The loop's initial state: `current_soc_pct = 100.0`, `dod_buffer_sum = 0.0`,
`current_capacity_ah = CAPACITY_INITIAL_SOH_AH`, `total_efc_accumulated = 0.0`. -/
def initState (p : SimParams) : SimState :=
  { soc := 100, buf := 0, cap := capacityInitial p, efc := 0 }

/-- The loop state after the first `n` hours of `profile` have been processed. -/
def stateAfter (p : SimParams) (profile : List ℚ) (n : ℕ) : SimState :=
  (profile.take n).foldl (step p) (initState p)

/-- The state recorded in the results table at hour `i` (row `i` is written
after the loop body for hour `i` has run). -/
def recorded (p : SimParams) (profile : List ℚ) (i : ℕ) : SimState :=
  stateAfter p profile (i + 1)

/-- `current_soh_pct = (current_capacity_ah / CAPACITY_NOMINAL_AH) * 100`. -/
def sohPct (p : SimParams) (s : SimState) : ℚ := s.cap / p.capNominal * 100

lemma stateAfter_succ (p : SimParams) (profile : List ℚ) (n : ℕ)
    (h : n < profile.length) :
    stateAfter p profile (n + 1) = step p (stateAfter p profile n) (profile.getD n 0) := by
  unfold stateAfter
  rw [List.take_succ, List.getElem?_eq_getElem h, List.getD_eq_getElem _ _ h]
  simp only [Option.toList_some, List.foldl_append, List.foldl_cons, List.foldl_nil]

lemma stateAfter_succ_of_length_le (p : SimParams) (profile : List ℚ) (n : ℕ)
    (h : profile.length ≤ n) :
    stateAfter p profile (n + 1) = stateAfter p profile n := by
  unfold stateAfter
  rw [List.take_of_length_le h, List.take_of_length_le (le_trans h (Nat.le_succ n))]

lemma step_soc_bounds (p : SimParams) (s : SimState) (i_h : ℚ) :
    0 ≤ (step p s i_h).soc ∧ (step p s i_h).soc ≤ 100 := by
  have h : (step p s i_h).soc = new_soc_pct s i_h := by
    dsimp only [step]
    split_ifs <;> rfl
  rw [h]
  unfold new_soc_pct npClip
  constructor
  · exact le_min (le_max_right _ _) (by norm_num)
  · exact min_le_right _ _

lemma step_cap_le (p : SimParams) (s : SimState) (i_h : ℚ)
    (hc : 0 ≤ capacityInitial p) : (step p s i_h).cap ≤ s.cap := by
  dsimp only [step]
  split_ifs with hfire
  · have hrate : 0 ≤ get_rate_per_efc 100 := le_max_left _ _
    have hefc : (0:ℚ) ≤ (s.buf + dod_in_hour s i_h) / 200 := by
      have : (0:ℚ) ≤ s.buf + dod_in_hour s i_h := le_trans (by norm_num) hfire
      positivity
    have hfade : (0:ℚ) ≤ get_rate_per_efc 100 * ((s.buf + dod_in_hour s i_h) / 200) * 100 / 100
        * capacityInitial p := by
      refine mul_nonneg (div_nonneg (mul_nonneg (mul_nonneg hrate hefc) (by norm_num))
        (by norm_num)) hc
    simp only
    linarith
  · exact le_refl _

lemma step_efc_ge (p : SimParams) (s : SimState) (i_h : ℚ) :
    s.efc ≤ (step p s i_h).efc := by
  dsimp only [step]
  split_ifs with hfire
  · have : (0:ℚ) ≤ (s.buf + dod_in_hour s i_h) / 200 := by
      have : (0:ℚ) ≤ s.buf + dod_in_hour s i_h := le_trans (by norm_num) hfire
      positivity
    simp only
    linarith
  · exact le_refl _

lemma stateAfter_cap_antitone (p : SimParams) (profile : List ℚ)
    (hc : 0 ≤ capacityInitial p) {n m : ℕ} (h : n ≤ m) :
    (stateAfter p profile m).cap ≤ (stateAfter p profile n).cap := by
  have ha : Antitone (fun m => (stateAfter p profile m).cap) := by
    refine antitone_nat_of_succ_le (fun k => ?_)
    by_cases hlen : k < profile.length
    · rw [stateAfter_succ p profile k hlen]
      exact step_cap_le p _ _ hc
    · rw [stateAfter_succ_of_length_le p profile k (Nat.le_of_not_lt hlen)]
  exact ha h

lemma stateAfter_efc_monotone (p : SimParams) (profile : List ℚ)
    {n m : ℕ} (h : n ≤ m) :
    (stateAfter p profile n).efc ≤ (stateAfter p profile m).efc := by
  have hm : Monotone (fun m => (stateAfter p profile m).efc) := by
    refine monotone_nat_of_le_succ (fun k => ?_)
    by_cases hlen : k < profile.length
    · rw [stateAfter_succ p profile k hlen]
      exact step_efc_ge p _ _
    · rw [stateAfter_succ_of_length_le p profile k (Nat.le_of_not_lt hlen)]
  exact hm h

/-- C1. For every hourly current profile, every (non-negative) initial SoH and
every positive nominal capacity, at every hour of the run the recorded SoC
lies in `[0, 100]`, the recorded usable capacity is non-increasing from hour
to hour, and the recorded cumulative EFC counter is non-decreasing from hour
to hour (stated for every pair of hours `i ≤ j` of the run, which subsumes
the neighbouring pairs `i, i+1`). -/
theorem recorded_soc_bounds_cap_antitone_efc_monotone
    (p : SimParams) (profile : List ℚ)
    (hsoh : 0 ≤ p.sohInit) (hnom : 0 < p.capNominal)
    (i j : ℕ) (hij : i ≤ j) (hj : j < profile.length) :
    (0 ≤ (recorded p profile i).soc ∧ (recorded p profile i).soc ≤ 100)
    ∧ (recorded p profile j).cap ≤ (recorded p profile i).cap
    ∧ (recorded p profile i).efc ≤ (recorded p profile j).efc := by
  have hc : 0 ≤ capacityInitial p := by
    unfold capacityInitial
    positivity
  have hi : i < profile.length := lt_of_le_of_lt hij hj
  constructor
  · unfold recorded
    rw [stateAfter_succ p profile i hi]
    exact step_soc_bounds p _ _
  · exact ⟨stateAfter_cap_antitone p profile hc (Nat.succ_le_succ hij),
      stateAfter_efc_monotone p profile (Nat.succ_le_succ hij)⟩

/-- Witness for C1: the concrete run of `Config.py`'s parameters
(nominal 100 Ah, initial SoH 80 %) on a three-hour profile. -/
theorem recorded_soc_bounds_cap_antitone_efc_monotone_witness :
    (0 ≤ (recorded ⟨100, 80⟩ [-25, 25, 0] 0).soc
      ∧ (recorded ⟨100, 80⟩ [-25, 25, 0] 0).soc ≤ 100)
    ∧ (recorded ⟨100, 80⟩ [-25, 25, 0] 1).cap ≤ (recorded ⟨100, 80⟩ [-25, 25, 0] 0).cap
    ∧ (recorded ⟨100, 80⟩ [-25, 25, 0] 0).efc ≤ (recorded ⟨100, 80⟩ [-25, 25, 0] 1).efc :=
  recorded_soc_bounds_cap_antitone_efc_monotone ⟨100, 80⟩ [-25, 25, 0]
    (by norm_num) (by norm_num) 0 1 (by norm_num) (by norm_num)

lemma step_fire_eq (p : SimParams) (s : SimState) (i_h : ℚ)
    (hfire : 200 ≤ s.buf + dod_in_hour s i_h) :
    step p s i_h =
      { soc := new_soc_pct s i_h,
        buf := pyMod (s.buf + dod_in_hour s i_h) 200,
        cap := s.cap - get_rate_per_efc 100 * ((s.buf + dod_in_hour s i_h) / 200) * 100 / 100
          * capacityInitial p,
        efc := s.efc + (s.buf + dod_in_hour s i_h) / 200 } := by
  dsimp only [step]
  rw [if_pos hfire]

lemma step_quiet_eq (p : SimParams) (s : SimState) (i_h : ℚ)
    (hqui : s.buf + dod_in_hour s i_h < 200) :
    step p s i_h =
      { soc := new_soc_pct s i_h, buf := s.buf + dod_in_hour s i_h,
        cap := s.cap, efc := s.efc } := by
  dsimp only [step]
  rw [if_neg (not_le.mpr hqui)]

/-- C4. In every hour where the DoD accumulator, after adding that hour's
absolute SoC change, reaches 200 or more, the loop adds exactly
`buffer / 200` to the cumulative EFC counter and leaves the accumulator at
its remainder after division by 200, a value in `[0, 200)`; in every hour
where it stays below 200, the counter, the capacity and the accumulator
(beyond the addition itself) are unchanged. -/
theorem step_efc_conversion_and_buffer_remainder (p : SimParams) (s : SimState) (i_h : ℚ) :
    (200 ≤ s.buf + dod_in_hour s i_h →
      (step p s i_h).efc = s.efc + (s.buf + dod_in_hour s i_h) / 200
      ∧ (step p s i_h).buf
          = (s.buf + dod_in_hour s i_h) - 200 * ⌊(s.buf + dod_in_hour s i_h) / 200⌋
      ∧ 0 ≤ (step p s i_h).buf ∧ (step p s i_h).buf < 200)
    ∧ (s.buf + dod_in_hour s i_h < 200 →
      (step p s i_h).efc = s.efc ∧ (step p s i_h).cap = s.cap
      ∧ (step p s i_h).buf = s.buf + dod_in_hour s i_h) := by
  constructor
  · intro hfire
    rw [step_fire_eq p s i_h hfire]
    refine ⟨rfl, rfl, ?_, ?_⟩
    · have h := Int.floor_le ((s.buf + dod_in_hour s i_h) / 200)
      unfold pyMod
      nlinarith [h]
    · have h := Int.lt_floor_add_one ((s.buf + dod_in_hour s i_h) / 200)
      unfold pyMod
      nlinarith [h]
  · intro hqui
    rw [step_quiet_eq p s i_h hqui]
    exact ⟨rfl, rfl, rfl⟩

/-- Witness for C4: a firing hour (buffer 150 plus a 50-point swing reaches
exactly 200) and a quiet hour (buffer 10 plus a 50-point swing stays at 60),
with the accumulator remainder landing in `[0, 200)`. -/
theorem step_efc_conversion_and_buffer_remainder_witness :
    ((step ⟨100, 80⟩ ⟨100, 150, 80, 0⟩ (-40)).efc
        = 0 + ((150:ℚ) + dod_in_hour ⟨100, 150, 80, 0⟩ (-40)) / 200
      ∧ (step ⟨100, 80⟩ ⟨100, 150, 80, 0⟩ (-40)).buf
        = ((150:ℚ) + dod_in_hour ⟨100, 150, 80, 0⟩ (-40))
          - 200 * ⌊((150:ℚ) + dod_in_hour ⟨100, 150, 80, 0⟩ (-40)) / 200⌋
      ∧ 0 ≤ (step ⟨100, 80⟩ ⟨100, 150, 80, 0⟩ (-40)).buf
      ∧ (step ⟨100, 80⟩ ⟨100, 150, 80, 0⟩ (-40)).buf < 200)
    ∧ ((step ⟨100, 80⟩ ⟨100, 10, 80, 0⟩ (-40)).efc = 0
      ∧ (step ⟨100, 80⟩ ⟨100, 10, 80, 0⟩ (-40)).cap = 80
      ∧ (step ⟨100, 80⟩ ⟨100, 10, 80, 0⟩ (-40)).buf
        = (10:ℚ) + dod_in_hour ⟨100, 10, 80, 0⟩ (-40)) := by
  constructor
  · exact (step_efc_conversion_and_buffer_remainder ⟨100, 80⟩ ⟨100, 150, 80, 0⟩ (-40)).1
      (by norm_num [dod_in_hour, new_soc_pct, delta_soc_pct, npClip])
  · exact (step_efc_conversion_and_buffer_remainder ⟨100, 80⟩ ⟨100, 10, 80, 0⟩ (-40)).2
      (by norm_num [dod_in_hour, new_soc_pct, delta_soc_pct, npClip])

lemma step_zero_current (p : SimParams) : step p (initState p) 0 = initState p := by
  have h1 : delta_soc_pct (initState p) 0 = 0 := by
    unfold delta_soc_pct
    ring
  have h2 : new_soc_pct (initState p) 0 = 100 := by
    unfold new_soc_pct
    rw [h1]
    unfold npClip initState
    norm_num
  have h3 : dod_in_hour (initState p) 0 = 0 := by
    unfold dod_in_hour
    rw [h2]
    unfold initState
    norm_num
  rw [step_quiet_eq p (initState p) 0 (by rw [h3]; unfold initState; norm_num)]
  rw [h2, h3]
  unfold initState
  norm_num

/-- C2. For every hourly profile along which the DoD accumulator (after
adding each hour's absolute SoC change) never reaches 200, no degradation
event fires, so the usable capacity, the EFC counter and the recorded SoH
stay exactly at their initial values throughout the run; and on a profile of
zero current every hour the whole state — SoC included — remains exactly the
initial state at every hour. -/
theorem no_trigger_means_no_degradation (p : SimParams) :
    (∀ profile : List ℚ,
      (∀ n, n < profile.length →
        (stateAfter p profile n).buf
          + dod_in_hour (stateAfter p profile n) (profile.getD n 0) < 200) →
      ∀ n, n ≤ profile.length →
        (stateAfter p profile n).cap = capacityInitial p
        ∧ (stateAfter p profile n).efc = 0
        ∧ sohPct p (stateAfter p profile n) = sohPct p (initState p))
    ∧ (∀ k n : ℕ, n ≤ k → stateAfter p (List.replicate k (0:ℚ)) n = initState p) := by
  constructor
  · intro profile hq
    intro n
    induction n with
    | zero =>
      intro _
      exact ⟨rfl, rfl, rfl⟩
    | succ m ih =>
      intro hm
      have hmlt : m < profile.length := Nat.lt_of_succ_le hm
      have hprev := ih (le_of_lt hmlt)
      rw [stateAfter_succ p profile m hmlt]
      rw [step_quiet_eq p _ _ (hq m hmlt)]
      refine ⟨hprev.1, hprev.2.1, ?_⟩
      unfold sohPct at *
      simpa using hprev.2.2
  · intro k n
    induction n with
    | zero =>
      intro _
      rfl
    | succ m ih =>
      intro hm
      have hmlt : m < (List.replicate k (0:ℚ)).length := by
        rw [List.length_replicate]
        exact Nat.lt_of_succ_le hm
      rw [stateAfter_succ p _ m hmlt]
      rw [ih (le_of_lt (by rwa [List.length_replicate] at hmlt))]
      have hget : (List.replicate k (0:ℚ)).getD m 0 = 0 := by
        rw [List.getD_eq_getElem _ _ hmlt]
        exact List.getElem_replicate 0 hmlt
      rw [hget]
      exact step_zero_current p

/-- Witness for C2: with `Config.py`'s parameters, a two-hour ±4 A profile
(4 % swings) never lets the accumulator reach 200, and the capacity, EFC
and SoH of every recorded hour equal their initial values; a zero-current
profile leaves the full state at the initial state. -/
theorem no_trigger_means_no_degradation_witness :
    ((stateAfter ⟨100, 80⟩ [-4, 4] 2).cap = capacityInitial ⟨100, 80⟩
      ∧ (stateAfter ⟨100, 80⟩ [-4, 4] 2).efc = 0
      ∧ sohPct ⟨100, 80⟩ (stateAfter ⟨100, 80⟩ [-4, 4] 2) = sohPct ⟨100, 80⟩ (initState ⟨100, 80⟩))
    ∧ stateAfter ⟨100, 80⟩ (List.replicate 24 (0:ℚ)) 24 = initState ⟨100, 80⟩ := by
  constructor
  · refine (no_trigger_means_no_degradation ⟨100, 80⟩).1 [-4, 4] ?_ 2 (by simp)
    intro n hn
    have hn2 : n < 2 := by simpa using hn
    interval_cases n <;>
      norm_num [stateAfter, initState, step, dod_in_hour, new_soc_pct, delta_soc_pct,
        npClip, capacityInitial, min_def, max_def, List.getD]
  · exact (no_trigger_means_no_degradation ⟨100, 80⟩).2 24 24 le_rfl

/-! ## C3: full depth-of-discharge cycling -/

/-- The parameters hardcoded by `Config.py`:
`CAPACITY_NOMINAL_AH = 100.0`, `INITIAL_SOH_PCT = 80.0`. -/
def configParams : SimParams := ⟨100, 80⟩

/-- One day of a profile alternating full discharge and full charge every
12 hours: 1C discharge current (−100 A) for 12 hours, then 1C charge
current (+100 A) for 12 hours, producing DoD-100 % swings (the SoC rails
from 100 to 0 in the first discharge hour and back in the first charge
hour, the clamp absorbing the rest). -/
def fullCycleDay : List ℚ := List.replicate 12 (-100) ++ List.replicate 12 100

/-- `k` days of the alternating full-discharge / full-charge profile. -/
def fullCycleProfile (k : ℕ) : List ℚ := (List.replicate k fullCycleDay).flatten

lemma foldl_replicate_fixed {f : SimState → ℚ → SimState} {s : SimState} {a : ℚ}
    (h : f s a = s) : ∀ n, (List.replicate n a).foldl f s = s := by
  intro n
  induction n with
  | zero => rfl
  | succ m ih => rw [List.replicate_succ, List.foldl_cons, h, ih]

lemma step_discharge_first (c e : ℚ) (hc0 : 0 < c) (hc1 : c ≤ 100) :
    step configParams ⟨100, 0, c, e⟩ (-100) = ⟨0, 100, c, e⟩ := by
  have hd : delta_soc_pct ⟨100, 0, c, e⟩ (-100) = -10000 / c := by
    unfold delta_soc_pct
    ring
  have hx : (100 : ℚ) + -10000 / c ≤ 0 := by
    have h1 : (100 : ℚ) ≤ 10000 / c := by
      rw [le_div_iff₀ hc0]
      linarith
    have h2 : (-10000 : ℚ) / c = -(10000 / c) := by ring
    rw [h2]
    linarith
  have hsoc : new_soc_pct ⟨100, 0, c, e⟩ (-100) = 0 := by
    unfold new_soc_pct npClip
    rw [hd]
    rw [max_eq_right hx, min_eq_left (by norm_num)]
  have hdod : dod_in_hour ⟨100, 0, c, e⟩ (-100) = 100 := by
    unfold dod_in_hour
    rw [hsoc]
    norm_num
  rw [step_quiet_eq configParams _ _ (by rw [hdod]; norm_num)]
  rw [hsoc, hdod]
  norm_num

lemma step_discharge_idle (b c e : ℚ) (hc0 : 0 < c) (hb : b < 200) :
    step configParams ⟨0, b, c, e⟩ (-100) = ⟨0, b, c, e⟩ := by
  have hd : delta_soc_pct ⟨0, b, c, e⟩ (-100) = -10000 / c := by
    unfold delta_soc_pct
    ring
  have hx : (0 : ℚ) + -10000 / c ≤ 0 := by
    have h1 : (0 : ℚ) < 10000 / c := by positivity
    have h2 : (-10000 : ℚ) / c = -(10000 / c) := by ring
    rw [h2]
    linarith
  have hsoc : new_soc_pct ⟨0, b, c, e⟩ (-100) = 0 := by
    unfold new_soc_pct npClip
    rw [hd]
    rw [max_eq_right hx, min_eq_left (by norm_num)]
  have hdod : dod_in_hour ⟨0, b, c, e⟩ (-100) = 0 := by
    unfold dod_in_hour
    rw [hsoc]
    norm_num
  rw [step_quiet_eq configParams _ _ (by rw [hdod]; simpa using hb)]
  rw [hsoc, hdod]
  norm_num

lemma step_charge_fire (c e : ℚ) (hc0 : 0 < c) (hc1 : c ≤ 100) :
    step configParams ⟨0, 100, c, e⟩ 100 = ⟨100, 0, c - 3 / 25, e + 1⟩ := by
  have hd : delta_soc_pct ⟨0, 100, c, e⟩ 100 = 10000 / c := by
    unfold delta_soc_pct
    ring
  have h1 : (100 : ℚ) ≤ 10000 / c := by
    rw [le_div_iff₀ hc0]
    linarith
  have hsoc : new_soc_pct ⟨0, 100, c, e⟩ 100 = 100 := by
    unfold new_soc_pct npClip
    rw [hd]
    rw [max_eq_left (by linarith), min_eq_right (by linarith)]
  have hdod : dod_in_hour ⟨0, 100, c, e⟩ 100 = 100 := by
    unfold dod_in_hour
    rw [hsoc]
    norm_num
  rw [step_fire_eq configParams _ _ (by rw [hdod]; norm_num)]
  rw [hsoc, hdod]
  have hrate : get_rate_per_efc 100 = 3 / 2000 := by
    rw [get_rate_per_efc_eq, npClip_eq_self (by norm_num) (by norm_num)]
    norm_num
  have hmod : pyMod ((100 : ℚ) + 100) 200 = 0 := by
    unfold pyMod
    norm_num
  rw [hrate, hmod]
  show SimState.mk 100 0 (c - 3 / 2000 * ((100 + 100) / 200) * 100 / 100 * capacityInitial configParams) (e + (100 + 100) / 200) = SimState.mk 100 0 (c - 3 / 25) (e + 1)
  have hcap : capacityInitial configParams = 80 := by
    unfold capacityInitial configParams
    norm_num
  rw [hcap]
  norm_num

lemma step_charge_idle (c e : ℚ) (hc0 : 0 < c) :
    step configParams ⟨100, 0, c, e⟩ 100 = ⟨100, 0, c, e⟩ := by
  have hd : delta_soc_pct ⟨100, 0, c, e⟩ 100 = 10000 / c := by
    unfold delta_soc_pct
    ring
  have h1 : (0 : ℚ) < 10000 / c := by positivity
  have hsoc : new_soc_pct ⟨100, 0, c, e⟩ 100 = 100 := by
    unfold new_soc_pct npClip
    rw [hd]
    rw [max_eq_left (by linarith), min_eq_right (by linarith)]
  have hdod : dod_in_hour ⟨100, 0, c, e⟩ 100 = 0 := by
    unfold dod_in_hour
    rw [hsoc]
    norm_num
  rw [step_quiet_eq configParams _ _ (by rw [hdod]; norm_num)]
  rw [hsoc, hdod]
  norm_num

lemma fullCycleDay_foldl (c e : ℚ) (hlo : 3 / 25 < c) (hhi : c ≤ 100) :
    fullCycleDay.foldl (step configParams) ⟨100, 0, c, e⟩ = ⟨100, 0, c - 3 / 25, e + 1⟩ := by
  have hc0 : 0 < c := lt_trans (by norm_num) hlo
  unfold fullCycleDay
  rw [List.foldl_append]
  rw [show List.replicate 12 (-100 : ℚ) = -100 :: List.replicate 11 (-100) from rfl]
  rw [List.foldl_cons, step_discharge_first c e hc0 hhi]
  rw [foldl_replicate_fixed (step_discharge_idle 100 c e hc0 (by norm_num)) 11]
  rw [show List.replicate 12 (100 : ℚ) = 100 :: List.replicate 11 100 from rfl]
  rw [List.foldl_cons, step_charge_fire c e hc0 hhi]
  rw [foldl_replicate_fixed (step_charge_idle (c - 3 / 25) (e + 1) (by linarith)) 11]

lemma fullCycleProfile_foldl (k : ℕ) (hk : k ≤ 666) :
    (fullCycleProfile k).foldl (step configParams) (initState configParams)
      = ⟨100, 0, 80 - 3 / 25 * (k : ℚ), (k : ℚ)⟩ := by
  induction k with
  | zero =>
    show initState configParams = _
    unfold initState configParams capacityInitial
    norm_num
  | succ n ih =>
    have hn : n ≤ 666 := Nat.le_of_succ_le hk
    have hcast : (n : ℚ) ≤ 665 := by
      have : n ≤ 665 := Nat.lt_succ_iff.mp (Nat.lt_of_lt_of_le (Nat.lt_succ_self n) hk)
      exact_mod_cast this
    have hnn : (0 : ℚ) ≤ (n : ℚ) := Nat.cast_nonneg n
    unfold fullCycleProfile
    rw [List.replicate_succ' n fullCycleDay, List.flatten_append]
    rw [show ([fullCycleDay] : List (List ℚ)).flatten = fullCycleDay by simp]
    rw [List.foldl_append]
    unfold fullCycleProfile at ih
    rw [ih hn]
    rw [fullCycleDay_foldl (80 - 3 / 25 * (n : ℚ)) (n : ℚ) (by linarith) (by linarith)]
    have h1 : (80 : ℚ) - 3 / 25 * (n : ℚ) - 3 / 25 = 80 - 3 / 25 * ((n : ℚ) + 1) := by ring
    rw [h1]
    push_cast
    rfl

/-- C3. For the profile alternating full discharge and full charge every
12 hours (DoD-100 % swings), after `K` simulated days (within the horizon on
which the usable capacity stays positive, `K ≤ 666`; the script simulates
365) the cumulative EFC counter equals exactly `K`, and the usable-capacity
loss in Ah equals `K` times the per-EFC table rate at 100 % DoD expressed in
percent of the initial usable capacity, the Ah loss being taken on the
initial (not current) usable capacity. -/
theorem full_cycle_profile_efc_equals_days_and_capacity_loss (K : ℕ) (hK : K ≤ 666) :
    ((fullCycleProfile K).foldl (step configParams) (initState configParams)).efc = (K : ℚ)
    ∧ capacityInitial configParams
        - ((fullCycleProfile K).foldl (step configParams) (initState configParams)).cap
      = (K : ℚ) * (get_rate_per_efc 100 * 100) / 100 * capacityInitial configParams := by
  rw [fullCycleProfile_foldl K hK]
  have hrate : get_rate_per_efc 100 = 3 / 2000 := by
    rw [get_rate_per_efc_eq, npClip_eq_self (by norm_num) (by norm_num)]
    norm_num
  have hcap : capacityInitial configParams = 80 := by
    unfold capacityInitial configParams
    norm_num
  rw [hrate, hcap]
  constructor
  · rfl
  · show (80 : ℚ) - (80 - 3 / 25 * (K : ℚ)) = (K : ℚ) * (3 / 2000 * 100) / 100 * 80
    ring

/-- Witness for C3 at `K = 2` days: 2 EFC and a 2 × 0.15 % × 80 Ah loss. -/
theorem full_cycle_profile_efc_equals_days_and_capacity_loss_witness :
    ((fullCycleProfile 2).foldl (step configParams) (initState configParams)).efc = (2 : ℚ)
    ∧ capacityInitial configParams
        - ((fullCycleProfile 2).foldl (step configParams) (initState configParams)).cap
      = (2 : ℚ) * (get_rate_per_efc 100 * 100) / 100 * capacityInitial configParams := by
  have h := full_cycle_profile_efc_equals_days_and_capacity_loss 2 (by norm_num)
  exact_mod_cast h

/-! ## The Monte Carlo LCOE engine of `pybamm_simulation_monte_carlo.py`
(the same constants and loop body appear in `Graphics.py`) -/

def PROJECT_LIFETIME_YEARS : ℕ := 25

def NOMINAL_CAPACITY_KWH : ℚ := 38.8

def BASE_DISCOUNT_RATE : ℚ := 0.08

def OPEX_PERCENTAGE : ℚ := 0.02

def COST_REDUCTION_RATE : ℚ := 0

def REPLACEMENT_YEARS : List ℕ := [10, 20]

/-- `BASE_ANNUAL_ENERGY = 5.82 * 365`. -/
def BASE_ANNUAL_ENERGY : ℚ := 5.82 * 365

/-- `RELATIVE_SOH_CURVE` entry for (1-based) year `y`:
`1.0 - (1.0 - 0.875) * (y_c + 1) / 10` with `y_c = (y - 1) % 10`, followed by
the `np.maximum(..., 0.875)` end-of-life clamp. -/
def RELATIVE_SOH_FRACTION (y : ℕ) : ℚ :=
  max (1 - (1 - 0.875) * (((y - 1) % 10 : ℕ) + 1) / 10) 0.875

/-- `DISCOUNT_SAMPLES = np.maximum(np.random.normal(...), 0.01)`:
the clamp applied to each drawn discount-rate sample. -/
def clampedDiscountSample (x : ℚ) : ℚ := max x 0.01

/-- `OPEX_SAMPLES = np.maximum(np.random.normal(...), 0.005)`:
the clamp applied to each drawn OPEX-fraction sample. -/
def clampedOpexSample (x : ℚ) : ℚ := max x 0.005

/-- `DEGRADATION_FACTORS = np.maximum(np.random.normal(...), 0.8)`:
the clamp applied to each drawn degradation multiplier. -/
def clampedDegradationFactor (x : ℚ) : ℚ := max x 0.8

/-- `relative_soh_adjusted`: the nominal curve times the degradation factor,
clamped above at 1.0 and below at 0.875. -/
def relative_soh_adjusted (degradation_factor : ℚ) (y : ℕ) : ℚ :=
  max (min (RELATIVE_SOH_FRACTION y * degradation_factor) 1) 0.875

/-- `DISCOUNT_FACTORS = 1.0 / (1 + discount_rate) ** YEARS` (year `t`). -/
def DISCOUNT_FACTORS (discount_rate : ℚ) (t : ℕ) : ℚ := 1 / (1 + discount_rate) ^ t

/-- `ENERGY_DELIVERED_NPV = np.sum(ANNUAL_ENERGY_KWH * DISCOUNT_FACTORS)`
with `ANNUAL_ENERGY_KWH = BASE_ANNUAL_ENERGY * relative_soh_adjusted`. -/
def ENERGY_DELIVERED_NPV (discount_rate degradation_factor : ℚ) : ℚ :=
  (Finset.Icc 1 PROJECT_LIFETIME_YEARS).sum fun t =>
    BASE_ANNUAL_ENERGY * relative_soh_adjusted degradation_factor t
      * DISCOUNT_FACTORS discount_rate t

/-- `CAPEX_INITIAL = NOMINAL_CAPACITY_KWH * capex_per_kwh`. -/
def CAPEX_INITIAL (capex_per_kwh : ℚ) : ℚ := NOMINAL_CAPACITY_KWH * capex_per_kwh

/-- `NPV_OPEX = np.sum(OM_ANNUAL * DISCOUNT_FACTORS)` with
`OM_ANNUAL = CAPEX_INITIAL * opex_percentage_sample`. -/
def NPV_OPEX (capex_initial opex_pct discount_rate : ℚ) : ℚ :=
  (Finset.Icc 1 PROJECT_LIFETIME_YEARS).sum fun t =>
    capex_initial * opex_pct * DISCOUNT_FACTORS discount_rate t

/-- The replacement loop: for each year in `REPLACEMENT_YEARS` add
`CAPEX_INITIAL * (1 - COST_REDUCTION_RATE) ** y / (1 + discount_rate) ** y`. -/
def NPV_REPLACEMENTS (capex_initial discount_rate : ℚ) : ℚ :=
  (REPLACEMENT_YEARS.map fun y =>
    capex_initial * (1 - COST_REDUCTION_RATE) ^ y / (1 + discount_rate) ^ y).sum

/-- `TOTAL_COSTS_NPV = CAPEX_INITIAL + NPV_REPLACEMENTS + NPV_OPEX`. -/
def TOTAL_COSTS_NPV (capex_initial opex_pct discount_rate : ℚ) : ℚ :=
  capex_initial + NPV_REPLACEMENTS capex_initial discount_rate
    + NPV_OPEX capex_initial opex_pct discount_rate

/-- The body of one Monte Carlo iteration: the LCOE value appended to
`lcoe_results` (`some`), or nothing (`none`) when the guard
`ENERGY_DELIVERED_NPV > 0` fails. -/
def lcoeIteration (capex_per_kwh discount_rate opex_pct degradation_factor : ℚ) : Option ℚ :=
  if 0 < ENERGY_DELIVERED_NPV discount_rate degradation_factor then
    some (TOTAL_COSTS_NPV (CAPEX_INITIAL capex_per_kwh) opex_pct discount_rate
      / ENERGY_DELIVERED_NPV discount_rate degradation_factor)
  else none

lemma DISCOUNT_FACTORS_pos (discount_rate : ℚ) (t : ℕ) (hr : 0 < 1 + discount_rate) :
    0 < DISCOUNT_FACTORS discount_rate t := by
  unfold DISCOUNT_FACTORS
  positivity

lemma relative_soh_adjusted_pos (g : ℚ) (y : ℕ) : 0 < relative_soh_adjusted g y :=
  lt_of_lt_of_le (by norm_num) (le_max_right _ _)

lemma ENERGY_DELIVERED_NPV_pos (discount_rate degradation_factor : ℚ)
    (hr : 0 < 1 + discount_rate) :
    0 < ENERGY_DELIVERED_NPV discount_rate degradation_factor := by
  unfold ENERGY_DELIVERED_NPV
  apply Finset.sum_pos
  · intro t _
    have h1 := DISCOUNT_FACTORS_pos discount_rate t hr
    have h2 := relative_soh_adjusted_pos degradation_factor t
    have h3 : (0:ℚ) < BASE_ANNUAL_ENERGY := by unfold BASE_ANNUAL_ENERGY; norm_num
    positivity
  · exact Finset.nonempty_Icc.mpr (by norm_num [PROJECT_LIFETIME_YEARS])

lemma TOTAL_COSTS_NPV_pos (capex_initial opex_pct discount_rate : ℚ)
    (hc : 0 < capex_initial) (ho : 0 ≤ opex_pct) (hr : 0 < 1 + discount_rate) :
    0 < TOTAL_COSTS_NPV capex_initial opex_pct discount_rate := by
  have hop : 0 ≤ NPV_OPEX capex_initial opex_pct discount_rate := by
    unfold NPV_OPEX
    apply Finset.sum_nonneg
    intro t _
    have h1 := DISCOUNT_FACTORS_pos discount_rate t hr
    have hcle := hc.le
    positivity
  have hrepl : 0 ≤ NPV_REPLACEMENTS capex_initial discount_rate := by
    unfold NPV_REPLACEMENTS REPLACEMENT_YEARS
    rw [List.map_cons, List.map_cons, List.map_nil, List.sum_cons, List.sum_cons, List.sum_nil]
    have hterm : ∀ y : ℕ,
        0 ≤ capex_initial * (1 - COST_REDUCTION_RATE) ^ y / (1 + discount_rate) ^ y := by
      intro y
      apply div_nonneg
      · exact mul_nonneg hc.le (pow_nonneg (by norm_num [COST_REDUCTION_RATE]) y)
      · exact pow_nonneg hr.le y
    have h10 := hterm 10
    have h20 := hterm 20
    linarith
  unfold TOTAL_COSTS_NPV
  linarith

/-- C7. In every Monte Carlo iteration an LCOE value is recorded exactly when
the energy-delivered present value (the denominator) is strictly positive —
otherwise the iteration records nothing — and, for sampled values respecting
the sampling clamps (positive CAPEX, discount rate ≥ 0.01, OPEX fraction
≥ 0.005, degradation multiplier ≥ 0.8), the recorded LCOE value is strictly
positive because the numerator is strictly positive. -/
theorem lcoe_iteration_guard_and_positivity :
    (∀ c r o g : ℚ, lcoeIteration c r o g ≠ none ↔ 0 < ENERGY_DELIVERED_NPV r g)
    ∧ (∀ c r o g : ℚ, 0 < c → 0.01 ≤ r → 0.005 ≤ o → 0.8 ≤ g →
        lcoeIteration c r o g
          = some (TOTAL_COSTS_NPV (CAPEX_INITIAL c) o r / ENERGY_DELIVERED_NPV r g)
        ∧ 0 < TOTAL_COSTS_NPV (CAPEX_INITIAL c) o r / ENERGY_DELIVERED_NPV r g) := by
  constructor
  · intro c r o g
    unfold lcoeIteration
    split_ifs with h
    · simpa using h
    · simpa using h
  · intro c r o g hc hr ho hg
    have hr1 : 0 < 1 + r := by linarith
    have hE := ENERGY_DELIVERED_NPV_pos r g hr1
    have hcap : 0 < CAPEX_INITIAL c := by
      unfold CAPEX_INITIAL NOMINAL_CAPACITY_KWH
      positivity
    have hT := TOTAL_COSTS_NPV_pos (CAPEX_INITIAL c) o r hcap (by linarith) hr1
    constructor
    · unfold lcoeIteration
      rw [if_pos hE]
    · exact div_pos hT hE

/-- Witness for C7 at the nominal sample (CAPEX 200 $/kWh, discount rate
0.08, OPEX fraction 0.02, degradation factor 1). -/
theorem lcoe_iteration_guard_and_positivity_witness :
    lcoeIteration 200 0.08 0.02 1
      = some (TOTAL_COSTS_NPV (CAPEX_INITIAL 200) 0.02 0.08 / ENERGY_DELIVERED_NPV 0.08 1)
    ∧ 0 < TOTAL_COSTS_NPV (CAPEX_INITIAL 200) 0.02 0.08 / ENERGY_DELIVERED_NPV 0.08 1 :=
  lcoe_iteration_guard_and_positivity.2 200 0.08 0.02 1
    (by norm_num) (by norm_num) (by norm_num) (by norm_num)

/-- C9. Out-of-domain samples are resolved by clamping, never by raising:
every clamped discount-rate sample is at least 0.01, every clamped OPEX
fraction at least 0.005, every clamped degradation multiplier at least 0.8,
and every per-year degradation-adjusted relative-SoH value used in the
energy computation lies in `[0.875, 1.0]`. -/
theorem monte_carlo_samples_clamped_to_documented_floors :
    (∀ x : ℚ, 0.01 ≤ clampedDiscountSample x)
    ∧ (∀ x : ℚ, 0.005 ≤ clampedOpexSample x)
    ∧ (∀ x : ℚ, 0.8 ≤ clampedDegradationFactor x)
    ∧ (∀ g : ℚ, ∀ y : ℕ,
        0.875 ≤ relative_soh_adjusted g y ∧ relative_soh_adjusted g y ≤ 1) := by
  refine ⟨fun x => le_max_right _ _, fun x => le_max_right _ _,
    fun x => le_max_right _ _, fun g y => ⟨le_max_right _ _, ?_⟩⟩
  exact max_le (min_le_right _ _) (by norm_num)

/-! ## C8: the inverse P90 CAPEX computation -/

def DISCOUNT_FACTORS_BASE (t : ℕ) : ℚ := 1 / (1 + BASE_DISCOUNT_RATE) ^ t

/-- `ANNUAL_ENERGY_KWH_BASE = BASE_ANNUAL_ENERGY * RELATIVE_SOH_FRACTION`:
the nominal (non-adjusted) SoH curve is used. -/
def ANNUAL_ENERGY_KWH_BASE (t : ℕ) : ℚ := BASE_ANNUAL_ENERGY * RELATIVE_SOH_FRACTION t

def ENERGY_DELIVERED_NPV_BASE : ℚ :=
  (Finset.Icc 1 PROJECT_LIFETIME_YEARS).sum fun t =>
    ANNUAL_ENERGY_KWH_BASE t * DISCOUNT_FACTORS_BASE t

def FACTOR_OPEX_NPV : ℚ :=
  (Finset.Icc 1 PROJECT_LIFETIME_YEARS).sum fun t => OPEX_PERCENTAGE * DISCOUNT_FACTORS_BASE t

def FACTOR_REPL_NPV : ℚ :=
  (REPLACEMENT_YEARS.map fun y =>
    (1 - COST_REDUCTION_RATE) ^ y / (1 + BASE_DISCOUNT_RATE) ^ y).sum

def LCC_CAPEX_FACTOR : ℚ := 1 + FACTOR_OPEX_NPV + FACTOR_REPL_NPV

def LCC_P90 (lcoe_p90 : ℚ) : ℚ := lcoe_p90 * ENERGY_DELIVERED_NPV_BASE

def CAPEX_INITIAL_P90 (lcoe_p90 : ℚ) : ℚ := LCC_P90 lcoe_p90 / LCC_CAPEX_FACTOR

def CAPEX_PER_KWH_P90 (lcoe_p90 : ℚ) : ℚ := CAPEX_INITIAL_P90 lcoe_p90 / NOMINAL_CAPACITY_KWH

/-- Modelled from the spec sentence of C8: the maximum-affordable CAPEX per
kWh at the risk percentile is `(P90 LCOE × nominal energy-delivered NPV) ÷
(1 + Σ_years OPEX-fraction × nominal discount factor + Σ_replacement-years
(1 − cost-reduction-rate)^year × nominal discount factor)`, divided by the
nominal capacity, all discount factors at the nominal rate and the energy
NPV on the nominal (non-adjusted) SoH curve. -/
def maxAffordableCapexPerKwhSpec (target_lcoe_percentile : ℚ) : ℚ :=
  target_lcoe_percentile * ENERGY_DELIVERED_NPV_BASE
    / (1
      + (Finset.Icc 1 PROJECT_LIFETIME_YEARS).sum
          (fun t => OPEX_PERCENTAGE * (1 / (1 + BASE_DISCOUNT_RATE) ^ t))
      + (REPLACEMENT_YEARS.map fun y =>
          (1 - COST_REDUCTION_RATE) ^ y * (1 / (1 + BASE_DISCOUNT_RATE) ^ y)).sum)
    / NOMINAL_CAPACITY_KWH

/-- C8. The script's derived maximum-affordable CAPEX per kWh at the risk
percentile (`CAPEX_PER_KWH_P90`) equals the spec's formula
`(P90 LCOE × nominal energy NPV) / (1 + OPEX factor + replacement factor)`,
divided by the nominal capacity, with nominal discount factors and the
nominal SoH curve throughout. -/
theorem capex_per_kwh_p90_matches_spec_formula (x : ℚ) :
    CAPEX_PER_KWH_P90 x = maxAffordableCapexPerKwhSpec x := by
  have hrepl : FACTOR_REPL_NPV
      = (REPLACEMENT_YEARS.map fun y =>
          (1 - COST_REDUCTION_RATE) ^ y * (1 / (1 + BASE_DISCOUNT_RATE) ^ y)).sum := by
    unfold FACTOR_REPL_NPV REPLACEMENT_YEARS
    rw [List.map_cons, List.map_cons, List.map_nil, List.sum_cons, List.sum_cons, List.sum_nil,
      List.map_cons, List.map_cons, List.map_nil, List.sum_cons, List.sum_cons, List.sum_nil]
    ring
  unfold CAPEX_PER_KWH_P90 CAPEX_INITIAL_P90 LCC_P90 LCC_CAPEX_FACTOR maxAffordableCapexPerKwhSpec
  rw [hrepl]
  rfl

/-! ## C6: the lognormal parameterization of `get_lognormal_params`
(`pybamm_simulation_monte_carlo.py` and `Graphics.py`, identical bodies) -/

/-- `get_lognormal_params(nominal_value, percent_std)`: with
`std_dev_abs = nominal_value * (percent_std / 100) / 2`, returns
`mu = log(nominal_value / sqrt(1 + (std_dev_abs / nominal_value)^2))` and
`sigma = sqrt(log(1 + (std_dev_abs / nominal_value)^2))`, in that order. -/
noncomputable def get_lognormal_params (nominal_value percent_std : ℝ) : ℝ × ℝ :=
  let std_dev_abs := nominal_value * (percent_std / 100) / 2
  let mu := Real.log (nominal_value / Real.sqrt (1 + (std_dev_abs / nominal_value) ^ 2))
  let sigma := Real.sqrt (Real.log (1 + (std_dev_abs / nominal_value) ^ 2))
  (mu, sigma)

/-- Counterexample to C6 as stated: at the nominal value 100 with 20 %
spread, the median of the resulting lognormal distribution, `exp(mu)`, is
not the nominal value (it is `100 / sqrt(1.01) < 100`). -/
theorem lognormal_median_differs_from_nominal :
    Real.exp ((get_lognormal_params 100 20).1) ≠ 100 := by
  have h1 : (get_lognormal_params 100 20).1
      = Real.log (100 / Real.sqrt (101 / 100)) := by
    show Real.log (100 / Real.sqrt (1 + ((100:ℝ) * (20 / 100) / 2 / 100) ^ 2))
      = Real.log (100 / Real.sqrt (101 / 100))
    norm_num
  have hsq : (1:ℝ) < Real.sqrt (101 / 100) := by
    have h := Real.sq_sqrt (show (0:ℝ) ≤ 101 / 100 by norm_num)
    nlinarith [Real.sqrt_nonneg (101 / 100 : ℝ)]
  have hpos : (0:ℝ) < 100 / Real.sqrt (101 / 100) :=
    div_pos (by norm_num) (lt_trans one_pos hsq)
  rw [h1, Real.exp_log hpos]
  exact ne_of_lt (div_lt_self (by norm_num) hsq)

/-- C6 as amended: for every positive nominal value `v` and percent spread
`p`, `get_lognormal_params` returns `sigma = sqrt(ln(1 + (std_abs/v)^2))`
and `mu = ln(v) - sigma^2/2` with `std_abs = v·p/200` (so the two stated
expressions for `mu` agree) — and this parameterization makes `v` the MEAN
of the resulting lognormal distribution, `exp(mu + sigma^2/2) = v`, while
the median is `exp(mu) = v / sqrt(1 + (std_abs/v)^2)`, below `v` whenever
the spread is nonzero. -/
theorem get_lognormal_params_mean_is_nominal (v p : ℝ) (hv : 0 < v) :
    (get_lognormal_params v p).2
      = Real.sqrt (Real.log (1 + (v * p / 200 / v) ^ 2))
    ∧ (get_lognormal_params v p).1
      = Real.log v - (get_lognormal_params v p).2 ^ 2 / 2
    ∧ Real.exp ((get_lognormal_params v p).1 + (get_lognormal_params v p).2 ^ 2 / 2) = v
    ∧ Real.exp ((get_lognormal_params v p).1)
      = v / Real.sqrt (1 + (v * p / 200 / v) ^ 2) := by
  have hstd : v * (p / 100) / 2 / v = v * p / 200 / v := by ring
  have h2 : (get_lognormal_params v p).2
      = Real.sqrt (Real.log (1 + (v * (p / 100) / 2 / v) ^ 2)) := rfl
  have h1 : (get_lognormal_params v p).1
      = Real.log (v / Real.sqrt (1 + (v * (p / 100) / 2 / v) ^ 2)) := rfl
  have hA : (1:ℝ) ≤ 1 + (v * (p / 100) / 2 / v) ^ 2 := by nlinarith [sq_nonneg (v * (p / 100) / 2 / v)]
  have hApos : (0:ℝ) < 1 + (v * (p / 100) / 2 / v) ^ 2 := lt_of_lt_of_le one_pos hA
  have hlog : (0:ℝ) ≤ Real.log (1 + (v * (p / 100) / 2 / v) ^ 2) := Real.log_nonneg hA
  have hsig : (get_lognormal_params v p).2 ^ 2
      = Real.log (1 + (v * (p / 100) / 2 / v) ^ 2) := by
    rw [h2]
    exact Real.sq_sqrt hlog
  have hsqrtpos : (0:ℝ) < Real.sqrt (1 + (v * (p / 100) / 2 / v) ^ 2) :=
    Real.sqrt_pos.mpr hApos
  have hmu : (get_lognormal_params v p).1
      = Real.log v - (get_lognormal_params v p).2 ^ 2 / 2 := by
    rw [h1, Real.log_div (ne_of_gt hv) (ne_of_gt hsqrtpos),
      Real.log_sqrt hApos.le, hsig]
  refine ⟨by rw [h2, hstd], hmu, ?_, ?_⟩
  · rw [hmu]
    have : Real.log v - (get_lognormal_params v p).2 ^ 2 / 2
        + (get_lognormal_params v p).2 ^ 2 / 2 = Real.log v := by ring
    rw [this, Real.exp_log hv]
  · rw [h1, Real.exp_log (div_pos hv hsqrtpos), hstd]

/-- Witness for the amended C6 at the script's CAPEX call,
`get_lognormal_params(200, 20)`. -/
theorem get_lognormal_params_mean_is_nominal_witness :
    (get_lognormal_params 200 20).2
      = Real.sqrt (Real.log (1 + ((200:ℝ) * 20 / 200 / 200) ^ 2))
    ∧ (get_lognormal_params 200 20).1
      = Real.log 200 - (get_lognormal_params 200 20).2 ^ 2 / 2
    ∧ Real.exp ((get_lognormal_params 200 20).1 + (get_lognormal_params 200 20).2 ^ 2 / 2) = 200
    ∧ Real.exp ((get_lognormal_params 200 20).1)
      = 200 / Real.sqrt (1 + ((200:ℝ) * 20 / 200 / 200) ^ 2) :=
  get_lognormal_params_mean_is_nominal 200 20 (by norm_num)

/-! ## C10: the optimistic-scenario LCOE script `calculate_lcoe.py` -/

/-- One row of the degradation CSV `pybamm_degradation_output.csv`
(columns `Time_Years` and `SOH_Pct_PyBaMM`). -/
structure DegRow where
  time_years : ℚ
  soh_pct_pybamm : ℚ
deriving DecidableEq

def SOH_END_OF_LIFE : ℚ := 70

def T_TECH_LIFE : ℚ := 10

def TOTAL_CVP_ARTICLE : ℚ := 8131.32

def TOTAL_EVP_KWH : ℚ := 21897.98

/-- `T_TECH_LIFE_SIMULATED`: the minimum `Time_Years` among rows whose
`SOH_Pct_PyBaMM` is at most 70; the article value `T_TECH_LIFE = 10.0` when
no row qualifies (`NaN` min) or when the file is absent (`FileNotFoundError`
branch). The degradation CSV is modelled as `Option (List DegRow)`, `none`
standing for a missing file. -/
def tTechLifeSimulated (input : Option (List DegRow)) : ℚ :=
  match input with
  | none => T_TECH_LIFE
  | some rows =>
    match ((rows.filter fun r => decide (r.soh_pct_pybamm ≤ SOH_END_OF_LIFE)).map
        fun r => r.time_years).min? with
    | none => T_TECH_LIFE
    | some m => m

/-- `LCOE_FINAL = TOTAL_CVP_ARTICLE / TOTAL_EVP_KWH`, computed (and printed)
only under the guard `TOTAL_EVP_KWH > 0`; the degradation input plays no
part in it. -/
def LCOE_FINAL (_input : Option (List DegRow)) : Option ℚ :=
  if 0 < TOTAL_EVP_KWH then some (TOTAL_CVP_ARTICLE / TOTAL_EVP_KWH) else none

/-- The observable outputs of `calculate_lcoe.py` as a function of the
degradation CSV: the printed technical-lifespan validation and the final
LCOE. -/
def calculateLcoeScript (input : Option (List DegRow)) : ℚ × Option ℚ :=
  (tTechLifeSimulated input, LCOE_FINAL input)

/-- C10. The final LCOE printed by the optimistic-scenario script is the
fixed ratio `8131.32 / 21897.98` of the two hardcoded constants, and two
runs differing only in the contents (or presence) of the degradation CSV
produce the identical LCOE — the input influences only the
technical-lifespan component of the output. -/
theorem lcoe_final_fixed_ratio_and_independent_of_degradation_input :
    (∀ input : Option (List DegRow),
      (calculateLcoeScript input).2 = some ((8131.32 : ℚ) / 21897.98))
    ∧ (∀ input₁ input₂ : Option (List DegRow),
      (calculateLcoeScript input₁).2 = (calculateLcoeScript input₂).2) := by
  have h : ∀ input : Option (List DegRow),
      (calculateLcoeScript input).2 = some ((8131.32 : ℚ) / 21897.98) := by
    intro input
    show LCOE_FINAL input = _
    unfold LCOE_FINAL TOTAL_EVP_KWH TOTAL_CVP_ARTICLE
    norm_num
  exact ⟨h, fun i₁ i₂ => by rw [h i₁, h i₂]⟩

end Microgrid
